import Mathlib

/-!
Shallow embedding of `src/main.rs` of `scullionw/snake-rs`, a grid snake
game built on the ggez runtime.  Only the simulation core is embedded:
geometry, snake body operations, food placement, and the tick/input logic
of `MainState` (`update` and `key_down_event`).  Rendering, audio and
resource loading are out of scope.

Modelling conventions:
* Coordinates are `f32` in the source but every position the program ever
  produces is lattice-aligned (`CELL_RADIUS + k * CELL_DIAMETER`, moved by
  `± CELL_DIAMETER`), hence an integer exactly representable in `f32`; we
  model coordinates as `ℤ`.
* `dist_to` computes `hypot (x2-x1) (y2-y1)` and is only ever compared
  with `<` against a nonnegative constant `c`; over the reals
  `hypot dx dy < c ↔ dx*dx + dy*dy < c*c`, and on the integer inputs the
  program produces the `f32` computation agrees with the real one at these
  comparison thresholds, so we embed the comparison as a squared-distance
  test over `ℤ`.
* `Instant` timestamps become `ℕ` milliseconds of a monotonic clock;
  `a.elapsed() >= Duration::from_millis(d)` at current time `now` becomes
  `a + d ≤ now`.
* `rand::thread_rng().gen_range(0, n)` returns an arbitrary value in
  `[0, n)`; we model it as `k % n` for an arbitrary seed `k : ℕ`, which
  ranges over exactly the outcomes the generator can produce.
* A panicking `unwrap` (the `head()` of an empty body) is modelled by
  `Option`: `none` is the panic.
-/

namespace SnakeRs

/-- `const BOARD_WIDTH: u32 = 800`. -/
def BOARD_WIDTH : ℕ := 800

/-- `const BOARD_HEIGHT: u32 = 600`. -/
def BOARD_HEIGHT : ℕ := 600

/-- `const CELL_RADIUS: u32 = 5`. -/
def CELL_RADIUS : ℕ := 5

/-- `const CELL_DIAMETER: u32 = 2 * CELL_RADIUS`. -/
def CELL_DIAMETER : ℕ := 2 * CELL_RADIUS

/-- `const SLOW_SPEED: u64 = 125` (milliseconds). -/
def SLOW_SPEED : ℕ := 125

/-- `const FAST_SPEED: u64 = 25` (milliseconds). -/
def FAST_SPEED : ℕ := 25

/-- The comparison `self.dist_to(other) < c` from trait `Locate`
(`(x2 - x1).hypot(y2 - y1) < c`), embedded as the equivalent
squared-distance comparison over `ℤ` (see the header note). -/
def distLtB (p q : ℤ × ℤ) (c : ℤ) : Bool :=
  decide ((q.1 - p.1) * (q.1 - p.1) + (q.2 - p.2) * (q.2 - p.2) < c * c)

/-- `struct SnakeCell { x, y, r }` (`r` is a rendering radius, only used
in drawing and never mutated). -/
structure SnakeCell where
  x : ℤ
  y : ℤ
  r : ℤ
deriving DecidableEq, Repr

/-- `impl Locate for SnakeCell: fn cartesian(&self) -> (f32, f32)`. -/
def SnakeCell.cartesian (c : SnakeCell) : ℤ × ℤ := (c.x, c.y)

/-- `struct Apple { x, y, r }`. -/
structure Apple where
  x : ℤ
  y : ℤ
  r : ℤ
deriving DecidableEq, Repr

/-- `impl Locate for Apple: fn cartesian(&self) -> (f32, f32)`. -/
def Apple.cartesian (a : Apple) : ℤ × ℤ := (a.x, a.y)

/-- `rng.gen_range(0, n)`: an arbitrary outcome in `[0, n)`, produced
from an arbitrary seed `k`. -/
def gen_range (n k : ℕ) : ℕ := k % n

/-- `GridPosition::random_x`:
`CELL_RADIUS + rng.gen_range(0, BOARD_WIDTH / CELL_DIAMETER) * CELL_DIAMETER`. -/
def GridPosition.random_x (k : ℕ) : ℤ :=
  (CELL_RADIUS : ℤ) + (gen_range (BOARD_WIDTH / CELL_DIAMETER) k : ℤ) * (CELL_DIAMETER : ℤ)

/-- `GridPosition::random_y`:
`CELL_RADIUS + rng.gen_range(0, BOARD_HEIGHT / CELL_DIAMETER) * CELL_DIAMETER`. -/
def GridPosition.random_y (k : ℕ) : ℤ :=
  (CELL_RADIUS : ℤ) + (gen_range (BOARD_HEIGHT / CELL_DIAMETER) k : ℤ) * (CELL_DIAMETER : ℤ)

/-- `GridPosition::middle_x`: `CELL_RADIUS + (slots / 2) * CELL_DIAMETER`
with `slots = BOARD_WIDTH / CELL_DIAMETER`. -/
def GridPosition.middle_x : ℤ :=
  (CELL_RADIUS : ℤ) + ((BOARD_WIDTH / CELL_DIAMETER / 2 : ℕ) : ℤ) * (CELL_DIAMETER : ℤ)

/-- `GridPosition::middle_y`: `CELL_RADIUS + (slots / 2) * CELL_DIAMETER`
with `slots = BOARD_HEIGHT / CELL_DIAMETER`. -/
def GridPosition.middle_y : ℤ :=
  (CELL_RADIUS : ℤ) + ((BOARD_HEIGHT / CELL_DIAMETER / 2 : ℕ) : ℤ) * (CELL_DIAMETER : ℤ)

/-- `Apple::new`: a fresh apple at a random grid position (the two `ℕ`
arguments are the seeds of the two `gen_range` calls). -/
def Apple.new (kx ky : ℕ) : Apple :=
  { x := GridPosition.random_x kx, y := GridPosition.random_y ky, r := (CELL_RADIUS : ℤ) }

/-- `Apple::eaten`: relocate in place to a fresh random grid position. -/
def Apple.eaten (a : Apple) (kx ky : ℕ) : Apple :=
  { a with x := GridPosition.random_x kx, y := GridPosition.random_y ky }

/-- `enum Direction { Up, Down, Left, Right }`. -/
inductive Direction where
  | up
  | down
  | left
  | right
deriving DecidableEq, Repr

/-- `impl Not for Direction` (the "opposite direction" mapping). -/
def Direction.not : Direction → Direction
  | .up => .down
  | .down => .up
  | .left => .right
  | .right => .left

/-- `SnakeCell::new(x, y)`. -/
def SnakeCell.new (x y : ℤ) : SnakeCell :=
  { x := x, y := y, r := (CELL_RADIUS : ℤ) }

/-- `SnakeCell::next_to(dir)`: the adjacent cell one `CELL_DIAMETER` step
in direction `dir` (screen coordinates: `Up` decreases `y`). -/
def SnakeCell.next_to (c : SnakeCell) (dir : Direction) : SnakeCell :=
  match dir with
  | .up => { c with y := c.y - (CELL_DIAMETER : ℤ) }
  | .down => { c with y := c.y + (CELL_DIAMETER : ℤ) }
  | .left => { c with x := c.x - (CELL_DIAMETER : ℤ) }
  | .right => { c with x := c.x + (CELL_DIAMETER : ℤ) }

/-- `struct Snake { body: VecDeque<SnakeCell>, curr_dir: Direction }`.
The deque is a list whose head is the deque front (the snake's head) and
whose last element is the deque back (the snake's tail). -/
@[ext]
structure Snake where
  body : List SnakeCell
  curr_dir : Direction
deriving DecidableEq, Repr

/-- `Snake::new`: body seeded with the middle cell and the cell to its
left, current direction `Right`. -/
def Snake.new : Snake :=
  let head := SnakeCell.new GridPosition.middle_x GridPosition.middle_y
  { body := [head, head.next_to .left], curr_dir := .right }

/-- `Snake::head`: `*self.body.front().unwrap()`; `none` models the
panic of `unwrap` on an empty body. -/
def Snake.head (s : Snake) : Option SnakeCell := s.body.head?

/-- `Snake::shorten_tail`: `self.body.pop_back()` (drops the back cell;
on an empty deque `pop_back` returns `None` and changes nothing). -/
def Snake.shorten_tail (s : Snake) : Snake :=
  { s with body := s.body.dropLast }

/-- `Snake::advance`: push `head().next_to(curr_dir)` to the front;
`none` models the panic of `head()` on an empty body. -/
def Snake.advance (s : Snake) : Option Snake :=
  s.head.map fun h => { s with body := h.next_to s.curr_dir :: s.body }

/-- `struct Bounds { width, height }`. -/
structure Bounds where
  width : ℤ
  height : ℤ
deriving DecidableEq, Repr

/-- `Bounds::new`: the fixed board extent. -/
def Bounds.new : Bounds :=
  { width := (BOARD_WIDTH : ℤ), height := (BOARD_HEIGHT : ℤ) }

/-- `Bounds::check(coord)`:
`coord.0 < width && coord.0 > 0.0 && coord.1 < height && coord.1 > 0.0`. -/
def Bounds.check (b : Bounds) (coord : ℤ × ℤ) : Bool :=
  decide (coord.1 < b.width) && decide (coord.1 > 0) &&
    decide (coord.2 < b.height) && decide (coord.2 > 0)

/-- `Snake::bounds_check`: every body cell passes `bounds.check`. -/
def Snake.bounds_check (s : Snake) (b : Bounds) : Bool :=
  s.body.all fun c => b.check c.cartesian

/-- `Snake::body_check`: count the body cells within `CELL_RADIUS` of
`head()` and accept iff that count is at most 1; `none` models the panic
of `head()` on an empty body. -/
def Snake.body_check (s : Snake) : Option Bool :=
  s.head.map fun h =>
    decide ((s.body.countP fun c => distLtB c.cartesian h.cartesian (CELL_RADIUS : ℤ)) ≤ 1)

/-- `struct MainState`, restricted to the simulation fields.  The audio
sources and the rendering part of `Score` (position, font) are out of
scope; `score` is `Score.val`.  `last_move` and `last_key_moment` are
`Instant`s, modelled as milliseconds of a monotonic clock. -/
@[ext]
structure MainState where
  snake : Snake
  apple : Apple
  bounds : Bounds
  last_move : ℕ
  last_key_moment : ℕ
  score : ℕ
  delay : ℕ
  game_over : Bool
deriving DecidableEq, Repr

/-- `MainState::new` at construction time `t0` (both `Instant::now()`
fields start there), with `kx ky` the seeds of `Apple::new`. -/
def MainState.new (t0 kx ky : ℕ) : MainState :=
  { snake := Snake.new
    apple := Apple.new kx ky
    bounds := Bounds.new
    last_move := t0
    last_key_moment := t0
    score := 0
    delay := SLOW_SPEED
    game_over := false }

/-- First step of `update`: `if last_key_moment.elapsed() >= delay`
reset `delay` to `SLOW_SPEED`. -/
def delay_decayed (s : MainState) (now : ℕ) : MainState :=
  if s.last_key_moment + s.delay ≤ now then { s with delay := SLOW_SPEED } else s

/-- The movement gate of `update`:
`last_move.elapsed() >= Duration::from_millis(delay)`. -/
def tick_fires (s : MainState) (now : ℕ) : Bool :=
  decide (s.last_move + s.delay ≤ now)

/-- The food-proximity step at the end of `update`, applied to the new
head `hd`: if `apple.dist_to(head) < CELL_DIAMETER` the apple is eaten
(relocated with seeds `kx ky`) and the score incremented, otherwise the
tail is shortened. -/
def apple_step (kx ky : ℕ) (s : MainState) (hd : SnakeCell) : MainState :=
  if distLtB s.apple.cartesian hd.cartesian (CELL_DIAMETER : ℤ) then
    { s with apple := s.apple.eaten kx ky, score := s.score + 1 }
  else
    { s with snake := s.snake.shorten_tail }

/-- `EventHandler::update` for `MainState` at current time `now`, with
`kx ky` the seeds of a potential apple relocation.  Faithful to the
source order: nothing when `game_over`; otherwise decay the delay, and
when the movement gate fires: record `last_move`, advance, set
`game_over` on a failed bounds or body check (the audio calls and
`ctx.quit()` are out of scope), then — unconditionally — run the
food-proximity step.  `none` models a `head()` panic. -/
def update (now kx ky : ℕ) (s : MainState) : Option MainState :=
  if s.game_over then some s
  else
    let s1 := delay_decayed s now
    if tick_fires s1 now then
      match s1.snake.advance with
      | none => none
      | some sn =>
        match sn.body_check with
        | none => none
        | some ok =>
          match sn.head with
          | none => none
          | some hd =>
            let s2 := { s1 with last_move := now, snake := sn }
            let s3 := if !sn.bounds_check s2.bounds || !ok then
                { s2 with game_over := true }
              else s2
            some (apple_step kx ky s3 hd)
    else some s1

/-- `EventHandler::key_down_event` for `MainState`: the keycode match is
pre-applied (`some dir` for an arrow key, `none` for any other key);
`rep` is the `repeat` flag, `now` the current time (`Instant::now()`). -/
def key_down_event (key : Option Direction) (rep : Bool) (now : ℕ) (s : MainState) : MainState :=
  match key with
  | none => s
  | some dir =>
    if dir ≠ s.snake.curr_dir.not then
      { s with delay := if rep then FAST_SPEED else SLOW_SPEED
               last_key_moment := now
               snake := { s.snake with curr_dir := dir } }
    else s

/-- The states reachable from a freshly constructed `MainState` by any
sequence of `update` (tick) and `key_down_event` (input) events, over all
construction times, clock readings and random seeds. -/
inductive Reachable : MainState → Prop where
  | init (t0 kx ky : ℕ) : Reachable (MainState.new t0 kx ky)
  | tick (s s' : MainState) (now kx ky : ℕ) :
      Reachable s → update now kx ky s = some s' → Reachable s'
  | input (s : MainState) (key : Option Direction) (rep : Bool) (now : ℕ) :
      Reachable s → Reachable (key_down_event key rep now s)

/-! ### Derived definitions used to state and prove the claims -/

/-- The snake after `advance` when its head is `c`: the cell one step in
the current direction is pushed to the front. -/
def advanced (s : MainState) (c : SnakeCell) : Snake :=
  { s.snake with body := c.next_to s.snake.curr_dir :: s.snake.body }

/-- The value `body_check` computes on the advanced snake (head of the
advanced snake is `c.next_to curr_dir`). -/
def body_ok (s : MainState) (c : SnakeCell) : Bool :=
  decide (((advanced s c).body.countP fun x =>
    distLtB x.cartesian ((c.next_to s.snake.curr_dir).cartesian) (CELL_RADIUS : ℤ)) ≤ 1)

/-- The game-over condition of `update` evaluated on the advanced snake:
the bounds check or the self-collision check fails. -/
def game_over_cond (s : MainState) (c : SnakeCell) : Bool :=
  !(advanced s c).bounds_check s.bounds || !body_ok s c

/-- The state `update` produces on a tick whose movement gate fires, given
that the pre-tick head is `c` (proved equal to `update`'s output in
`update_fired` below); stated as a flat record for convenient reasoning. -/
def tick_result (now kx ky : ℕ) (s : MainState) (c : SnakeCell) : MainState :=
  { snake :=
      if distLtB s.apple.cartesian ((c.next_to s.snake.curr_dir).cartesian) (CELL_DIAMETER : ℤ)
      then advanced s c else (advanced s c).shorten_tail
    apple :=
      if distLtB s.apple.cartesian ((c.next_to s.snake.curr_dir).cartesian) (CELL_DIAMETER : ℤ)
      then s.apple.eaten kx ky else s.apple
    bounds := s.bounds
    last_move := now
    last_key_moment := s.last_key_moment
    score :=
      if distLtB s.apple.cartesian ((c.next_to s.snake.curr_dir).cartesian) (CELL_DIAMETER : ℤ)
      then s.score + 1 else s.score
    delay := if s.last_key_moment + s.delay ≤ now then SLOW_SPEED else s.delay
    game_over := game_over_cond s c }

/-- The food-placement invariant: lattice-aligned coordinates (cell radius
plus an integer multiple of the cell diameter) strictly inside the board. -/
def food_ok (a : Apple) : Prop :=
  (∃ m : ℕ, a.x = (CELL_RADIUS : ℤ) + (m : ℤ) * (CELL_DIAMETER : ℤ)) ∧
    (∃ n : ℕ, a.y = (CELL_RADIUS : ℤ) + (n : ℤ) * (CELL_DIAMETER : ℤ)) ∧
    Bounds.new.check a.cartesian = true

/-- A concrete run used as a reachability witness: construct the state at
time 0 with both random seeds 0 (apple at the top-left slot `(5, 5)`) and
tick every 125 ms with seeds 0. -/
def runTicks : ℕ → Option MainState
  | 0 => some (MainState.new 0 0 0)
  | n + 1 => (runTicks n).bind (update (125 * (n + 1)) 0 0)

/-- The state of the concrete run after 39 ticks: head at `(795, 305)`,
one step short of the right edge, game still active. -/
def s39 : MainState :=
  { snake := { body := [⟨795, 305, 5⟩, ⟨785, 305, 5⟩], curr_dir := .right }
    apple := ⟨5, 5, 5⟩
    bounds := ⟨800, 600⟩
    last_move := 4875
    last_key_moment := 0
    score := 0
    delay := 125
    game_over := false }

/-- The state of the concrete run after 40 ticks: the 40th advance moved
the head to `(805, 305)`, out of bounds, so the game is over — and the
tail was still shortened on that same tick. -/
def s40 : MainState :=
  { snake := { body := [⟨805, 305, 5⟩, ⟨795, 305, 5⟩], curr_dir := .right }
    apple := ⟨5, 5, 5⟩
    bounds := ⟨800, 600⟩
    last_move := 5000
    last_key_moment := 0
    score := 0
    delay := 125
    game_over := true }

/-! ### Helper lemmas -/

/-- A point is always strictly within distance `c` of itself, for `c > 0`. -/
theorem distLtB_self (p : ℤ × ℤ) (c : ℤ) (hc : 0 < c) : distLtB p p c = true := by
  simp only [distLtB, sub_self, mul_zero, zero_mul, add_zero, decide_eq_true_eq]
  exact mul_pos hc hc

/-- Pointwise reading of `Bounds.check` on a cell. -/
theorem bounds_check_cell (b : Bounds) (cc : SnakeCell) :
    b.check cc.cartesian = true ↔ (0 < cc.x ∧ cc.x < b.width ∧ 0 < cc.y ∧ cc.y < b.height) := by
  unfold Bounds.check SnakeCell.cartesian
  simp only [Bool.and_eq_true, decide_eq_true_eq]
  omega

/-- `random_x` always produces a lattice-aligned coordinate strictly inside
the horizontal extent. -/
theorem random_x_ok (k : ℕ) :
    (∃ m : ℕ, GridPosition.random_x k = (CELL_RADIUS : ℤ) + (m : ℤ) * (CELL_DIAMETER : ℤ)) ∧
      0 < GridPosition.random_x k ∧ GridPosition.random_x k < (BOARD_WIDTH : ℤ) := by
  refine ⟨Exists.intro (gen_range (BOARD_WIDTH / CELL_DIAMETER) k) rfl, ?_, ?_⟩ <;>
    · unfold GridPosition.random_x gen_range BOARD_WIDTH CELL_DIAMETER CELL_RADIUS
      omega

/-- `random_y` always produces a lattice-aligned coordinate strictly inside
the vertical extent. -/
theorem random_y_ok (k : ℕ) :
    (∃ m : ℕ, GridPosition.random_y k = (CELL_RADIUS : ℤ) + (m : ℤ) * (CELL_DIAMETER : ℤ)) ∧
      0 < GridPosition.random_y k ∧ GridPosition.random_y k < (BOARD_HEIGHT : ℤ) := by
  refine ⟨Exists.intro (gen_range (BOARD_HEIGHT / CELL_DIAMETER) k) rfl, ?_, ?_⟩ <;>
    · unfold GridPosition.random_y gen_range BOARD_HEIGHT CELL_DIAMETER CELL_RADIUS
      omega

/-- Any apple whose coordinates come from `random_x`/`random_y` satisfies the
placement invariant. -/
theorem food_ok_random (a : Apple) (kx ky : ℕ)
    (hx : a.x = GridPosition.random_x kx) (hy : a.y = GridPosition.random_y ky) :
    food_ok a := by
  obtain ⟨⟨mx, hmx⟩, hx0, hxw⟩ := random_x_ok kx
  obtain ⟨⟨my, hmy⟩, hy0, hyh⟩ := random_y_ok ky
  unfold food_ok
  refine ⟨⟨mx, by rw [hx, hmx]⟩, ⟨my, by rw [hy, hmy]⟩, ?_⟩
  unfold Bounds.check Bounds.new Apple.cartesian
  simp only [Bool.and_eq_true, decide_eq_true_eq]
  rw [hx, hy]
  exact ⟨⟨⟨hxw, hx0⟩, hyh⟩, hy0⟩

/-- `delay_decayed` only touches the delay field. -/
theorem delay_decayed_snake (s : MainState) (now : ℕ) : (delay_decayed s now).snake = s.snake := by
  unfold delay_decayed
  split <;> rfl

/-- `key_down_event` never changes the body. -/
theorem key_down_body (key : Option Direction) (rep : Bool) (now : ℕ) (s : MainState) :
    (key_down_event key rep now s).snake.body = s.snake.body := by
  unfold key_down_event
  cases key with
  | none => rfl
  | some dir =>
    dsimp only
    split <;> rfl

/-- `update` on a game-over state returns the state unchanged. -/
theorem update_game_over (now kx ky : ℕ) (s : MainState) (h : s.game_over = true) :
    update now kx ky s = some s := by
  unfold update
  rw [if_pos h]

/-- `update` on an active state whose movement gate does not fire only
decays the delay. -/
theorem update_no_fire (now kx ky : ℕ) (s : MainState) (hgo : s.game_over = false)
    (hf : tick_fires (delay_decayed s now) now = false) :
    update now kx ky s = some (delay_decayed s now) := by
  unfold update
  simp [hgo, hf]

/-- `advance` on a nonempty body prepends the next cell. -/
theorem advance_cons (s : MainState) (c : SnakeCell) (l : List SnakeCell)
    (hb : s.snake.body = c :: l) :
    s.snake.advance = some (advanced s c) := by
  unfold Snake.advance Snake.head advanced
  rw [hb]
  rfl

/-- `body_check` on the advanced snake computes `body_ok`. -/
theorem body_check_advanced (s : MainState) (c : SnakeCell) :
    (advanced s c).body_check = some (body_ok s c) := rfl

/-- `head` of the advanced snake is the freshly pushed cell. -/
theorem head_advanced (s : MainState) (c : SnakeCell) :
    (advanced s c).head = some (c.next_to s.snake.curr_dir) := rfl

/-- Full characterisation of `update` on an active state whose movement
gate fires and whose body is nonempty with front cell `c`: it returns
exactly `tick_result`. -/
theorem update_fired (now kx ky : ℕ) (s : MainState) (c : SnakeCell) (l : List SnakeCell)
    (hgo : s.game_over = false) (hb : s.snake.body = c :: l)
    (hf : tick_fires (delay_decayed s now) now = true) :
    update now kx ky s = some (tick_result now kx ky s c) := by
  have hadv : (delay_decayed s now).snake.advance = some (advanced s c) := by
    rw [delay_decayed_snake]
    exact advance_cons s c l hb
  unfold update
  simp only [hgo, Bool.false_eq_true, if_false, hf, if_true, hadv, body_check_advanced,
    head_advanced]
  unfold tick_result apple_step game_over_cond delay_decayed
  by_cases hdec : s.last_key_moment + s.delay ≤ now <;>
    simp only [hdec, if_true, if_false] <;>
      split <;> split <;> simp_all [MainState.ext_iff, Snake.ext_iff]

/-- Every state the concrete run passes through is reachable. -/
theorem runTicks_reachable (n : ℕ) : ∀ s, runTicks n = some s → Reachable s := by
  induction n with
  | zero =>
    intro s h
    unfold runTicks at h
    cases h
    exact Reachable.init 0 0 0
  | succ n ih =>
    intro s h
    unfold runTicks at h
    cases hr : runTicks n with
    | none => rw [hr] at h; simp at h
    | some s0 =>
      rw [hr] at h
      simp only [Option.some_bind] at h
      exact Reachable.tick s0 s _ 0 0 (ih s0 hr) h

/-- After 39 ticks of the concrete run the snake is one step short of the
right edge. -/
theorem runTicks_39 : runTicks 39 = some s39 := by decide

/-- The 40th tick of the concrete run drives the head out of bounds. -/
theorem runTicks_40 : runTicks 40 = some s40 := by decide

/-- Invariant: every reachable state has a body of at least two cells. -/
theorem reachable_body_len (s : MainState) (h : Reachable s) : 2 ≤ s.snake.body.length := by
  induction h with
  | init t0 kx ky => simp [MainState.new, Snake.new]
  | tick s s' now kx ky hr heq ih =>
    by_cases hgo : s.game_over = true
    · rw [update_game_over now kx ky s hgo] at heq
      injection heq with h2
      subst h2
      exact ih
    · have hgo' : s.game_over = false := by revert hgo; cases s.game_over <;> simp
      by_cases hf : tick_fires (delay_decayed s now) now = true
      · cases hb : s.snake.body with
        | nil => rw [hb] at ih; simp at ih
        | cons c l =>
          rw [update_fired now kx ky s c l hgo' hb hf] at heq
          injection heq with h2
          subst h2
          unfold tick_result
          dsimp only
          split
          · simp only [advanced, List.length_cons]
            omega
          · simp only [Snake.shorten_tail, advanced, List.length_dropLast, List.length_cons]
            omega
      · have hf' : tick_fires (delay_decayed s now) now = false := by
          revert hf; cases tick_fires (delay_decayed s now) now <;> simp
        rw [update_no_fire now kx ky s hgo' hf'] at heq
        injection heq with h2
        subst h2
        rw [delay_decayed_snake]
        exact ih
  | input s key rep now hr ih =>
    rw [key_down_body]
    exact ih

/-! ### Claim theorems (part 1: component-level claims) -/

/-- C3: `body_check` succeeds (no fatal collision) iff no body cell other
than the head itself — i.e. no cell of the tail of the body deque — lies
strictly within one cell radius of the head; the head's own zero-distance
pairing is tolerated and any other proximity pairing is fatal. -/
theorem C3_body_check_iff (sn : Snake) (c : SnakeCell) (hh : sn.head = some c) :
    sn.body_check = some true ↔
      ∀ x ∈ sn.body.tail, distLtB x.cartesian c.cartesian (CELL_RADIUS : ℤ) = false := by
  obtain ⟨body, dir⟩ := sn
  cases body with
  | nil => simp [Snake.head] at hh
  | cons a t =>
    have hac : a = c := by simpa [Snake.head] using hh
    subst hac
    have hself : distLtB a.cartesian a.cartesian (CELL_RADIUS : ℤ) = true :=
      distLtB_self _ _ (by unfold CELL_RADIUS; omega)
    simp only [Snake.body_check, Snake.head, List.head?_cons, Option.map_some',
      Option.some.injEq, List.tail_cons, decide_eq_true_eq, List.countP_cons, hself,
      if_true]
    constructor
    · intro hle x hx
      have h0 : List.countP (fun c => distLtB c.cartesian a.cartesian (CELL_RADIUS : ℤ)) t = 0 := by
        omega
      have := List.countP_eq_zero.mp h0 x hx
      simpa using this
    · intro hall
      have h0 : List.countP (fun c => distLtB c.cartesian a.cartesian (CELL_RADIUS : ℤ)) t = 0 :=
        List.countP_eq_zero.mpr (by intro x hx; simpa using hall x hx)
      omega

/-- C3 witness: instantiated at the freshly constructed snake. -/
theorem C3_body_check_iff_witness :
    Snake.new.body_check = some true ↔
      ∀ x ∈ Snake.new.body.tail,
        distLtB x.cartesian (SnakeCell.new GridPosition.middle_x GridPosition.middle_y).cartesian
          (CELL_RADIUS : ℤ) = false :=
  C3_body_check_iff Snake.new _ (by decide)

/-- C4 counterexample: on a body with exactly one cell, `shorten_tail` is
not a no-op — `pop_back` removes the only cell, emptying the body. -/
theorem C4_singleton_not_noop :
    Snake.shorten_tail ⟨[SnakeCell.new 405 305], .right⟩ ≠
      (⟨[SnakeCell.new 405 305], .right⟩ : Snake) := by
  decide

/-- C4 (amended): `shorten_tail` removes exactly the oldest (back) cell from
every nonempty body — including a one-cell body, which becomes empty — and
is a no-op only on an already empty body. -/
theorem C4_shorten_tail_back (l : List SnakeCell) (c : SnakeCell) (d : Direction) :
    Snake.shorten_tail ⟨l ++ [c], d⟩ = (⟨l, d⟩ : Snake) ∧
      Snake.shorten_tail ⟨[], d⟩ = (⟨[], d⟩ : Snake) := by
  constructor
  · simp [Snake.shorten_tail]
  · rfl

/-- C5: a direction-change request equal to the opposite of the current
direction is silently ignored; any other requested direction becomes the
current direction. -/
theorem C5_set_direction (s : MainState) (dir : Direction) (rep : Bool) (now : ℕ) :
    (key_down_event (some dir) rep now s).snake.curr_dir =
      if dir = s.snake.curr_dir.not then s.snake.curr_dir else dir := by
  unfold key_down_event
  by_cases h : dir = s.snake.curr_dir.not
  · simp [h]
  · simp [h]

/-- C8: the bounds predicate holds iff both coordinates lie strictly inside
the open box, and the whole-body bounds check is false iff some body cell
has a coordinate at or beyond an edge. -/
theorem C8_bounds_iff (b : Bounds) (x y : ℤ) (sn : Snake) :
    (b.check (x, y) = true ↔ (0 < x ∧ x < b.width ∧ 0 < y ∧ y < b.height)) ∧
      (sn.bounds_check b = false ↔
        ∃ c ∈ sn.body, c.x ≤ 0 ∨ b.width ≤ c.x ∨ c.y ≤ 0 ∨ b.height ≤ c.y) := by
  constructor
  · unfold Bounds.check
    simp only [Bool.and_eq_true, decide_eq_true_eq]
    omega
  · unfold Snake.bounds_check
    rw [← Bool.not_eq_true, List.all_eq_true]
    constructor
    · intro h
      by_contra hex
      push_neg at hex
      apply h
      intro cc hmem
      have h4 := hex cc hmem
      rw [bounds_check_cell]
      omega
    · rintro ⟨cc, hmem, hcc⟩ hall
      have hc := hall cc hmem
      rw [bounds_check_cell] at hc
      omega

/-- C9: for every outcome of the random number generator, the food position
produced by `Apple::new` (spawn) and by `Apple::eaten` (relocation) is
lattice-aligned and strictly inside the board bounds. -/
theorem C9_food_placement (kx ky : ℕ) (a : Apple) :
    food_ok (Apple.new kx ky) ∧ food_ok (Apple.eaten a kx ky) :=
  ⟨food_ok_random _ kx ky rfl rfl, food_ok_random _ kx ky rfl rfl⟩

/-- C10: the freshly constructed snake has exactly two body cells: the head
at the fixed middle starting position and a tail cell one cell-diameter step
from the head in the opposite of the initial direction. -/
theorem C10_new_snake :
    Snake.new.body.length = 2 ∧
      Snake.new.head = some (SnakeCell.new GridPosition.middle_x GridPosition.middle_y) ∧
      Snake.new.body.getLast? =
        some ((SnakeCell.new GridPosition.middle_x GridPosition.middle_y).next_to
          Snake.new.curr_dir.not) := by
  decide

/-! ### Claim theorems (part 2: controller claims) -/

/-- C1 counterexample: a reachable game-over state in which a subsequent
input event changes the state — `key_down_event` is not gated on the
terminal flag, so an arrow key still mutates the direction, delay and
last-input timestamp. -/
theorem C1_game_over_input_changes_state :
    Reachable s40 ∧ s40.game_over = true ∧
      key_down_event (some .up) false 6000 s40 ≠ s40 :=
  ⟨runTicks_reachable 40 s40 runTicks_40, rfl, by decide⟩

/-- C1 (amended): once the terminal flag is set, tick events leave the
state unchanged, but input events are still processed exactly as in the
active state: a non-direction key or a reversal request leaves the state
unchanged, while any other direction key updates the current direction,
the inter-tick delay and the last-input timestamp. -/
theorem C1_game_over_events (s : MainState) (hgo : s.game_over = true) :
    (∀ now kx ky, update now kx ky s = some s) ∧
      (∀ rep now, key_down_event none rep now s = s) ∧
      (∀ dir rep now, dir = s.snake.curr_dir.not → key_down_event (some dir) rep now s = s) ∧
      (∀ dir rep now, dir ≠ s.snake.curr_dir.not →
        key_down_event (some dir) rep now s =
          { s with delay := if rep then FAST_SPEED else SLOW_SPEED
                   last_key_moment := now
                   snake := { s.snake with curr_dir := dir } }) := by
  refine ⟨fun now kx ky => update_game_over now kx ky s hgo, fun rep now => rfl, ?_, ?_⟩
  · intro dir rep now hdir
    unfold key_down_event
    simp [hdir]
  · intro dir rep now hdir
    unfold key_down_event
    simp [hdir]

/-- C1 witness: the amended theorem instantiated at the concrete reachable
game-over state `s40`. -/
theorem C1_game_over_events_witness :
    (∀ now kx ky, update now kx ky s40 = some s40) ∧
      (∀ rep now, key_down_event none rep now s40 = s40) ∧
      (∀ dir rep now, dir = s40.snake.curr_dir.not → key_down_event (some dir) rep now s40 = s40) ∧
      (∀ dir rep now, dir ≠ s40.snake.curr_dir.not →
        key_down_event (some dir) rep now s40 =
          { s40 with delay := if rep then FAST_SPEED else SLOW_SPEED
                     last_key_moment := now
                     snake := { s40.snake with curr_dir := dir } }) :=
  C1_game_over_events s40 rfl

/-- C2 counterexample: the reachable 40th tick of the concrete run detects
the out-of-bounds condition (the advance yields a three-cell body whose
head is at `x = 805`) and sets the terminal flag — yet the post-tick body
has only two cells, so the tail was still shortened on that same tick,
contradicting "performs nothing else". -/
theorem C2_game_over_tick_still_shortens :
    Reachable s39 ∧ s39.game_over = false ∧
      (s39.snake.advance.map fun sn => sn.body.length) = some 3 ∧
      update 5000 0 0 s39 = some s40 ∧
      s40.game_over = true ∧ s40.snake.body.length = 2 :=
  ⟨runTicks_reachable 39 s39 runTicks_39, rfl, by decide, by decide, rfl, rfl⟩

/-- C2 (amended): on a tick where, after the advance, the bounds check or
the self-collision check fails, the controller sets the terminal flag and
still performs the food-proximity step of that tick — it either consumes
the food (score increment and relocation, keeping the grown body) or
shortens the tail, exactly as on a non-failing tick; every subsequent tick
leaves the state unchanged. -/
theorem C2_game_over_tick (s : MainState) (now kx ky : ℕ) (c : SnakeCell) (l : List SnakeCell)
    (hgo : s.game_over = false) (hb : s.snake.body = c :: l)
    (hf : tick_fires (delay_decayed s now) now = true)
    (hfail : game_over_cond s c = true) :
    update now kx ky s = some (tick_result now kx ky s c) ∧
      (tick_result now kx ky s c).game_over = true ∧
      (distLtB s.apple.cartesian ((c.next_to s.snake.curr_dir).cartesian) (CELL_DIAMETER : ℤ) =
          true →
        (tick_result now kx ky s c).score = s.score + 1 ∧
        (tick_result now kx ky s c).apple = s.apple.eaten kx ky ∧
        (tick_result now kx ky s c).snake = advanced s c) ∧
      (distLtB s.apple.cartesian ((c.next_to s.snake.curr_dir).cartesian) (CELL_DIAMETER : ℤ) =
          false →
        (tick_result now kx ky s c).score = s.score ∧
        (tick_result now kx ky s c).apple = s.apple ∧
        (tick_result now kx ky s c).snake = (advanced s c).shorten_tail) ∧
      (∀ now2 kx2 ky2,
        update now2 kx2 ky2 (tick_result now kx ky s c) = some (tick_result now kx ky s c)) := by
  refine ⟨update_fired now kx ky s c l hgo hb hf, hfail, ?_, ?_, ?_⟩
  · intro hnear
    unfold tick_result
    simp [hnear]
  · intro hnear
    unfold tick_result
    simp [hnear]
  · intro now2 kx2 ky2
    exact update_game_over now2 kx2 ky2 _ hfail

/-- C2 witness: the amended theorem instantiated at the concrete reachable
state `s39` and its out-of-bounds 40th tick. -/
theorem C2_game_over_tick_witness :
    update 5000 0 0 s39 = some (tick_result 5000 0 0 s39 ⟨795, 305, 5⟩) ∧
      (tick_result 5000 0 0 s39 ⟨795, 305, 5⟩).game_over = true ∧
      (distLtB s39.apple.cartesian
          (((⟨795, 305, 5⟩ : SnakeCell).next_to s39.snake.curr_dir).cartesian)
          (CELL_DIAMETER : ℤ) = true →
        (tick_result 5000 0 0 s39 ⟨795, 305, 5⟩).score = s39.score + 1 ∧
        (tick_result 5000 0 0 s39 ⟨795, 305, 5⟩).apple = s39.apple.eaten 0 0 ∧
        (tick_result 5000 0 0 s39 ⟨795, 305, 5⟩).snake = advanced s39 ⟨795, 305, 5⟩) ∧
      (distLtB s39.apple.cartesian
          (((⟨795, 305, 5⟩ : SnakeCell).next_to s39.snake.curr_dir).cartesian)
          (CELL_DIAMETER : ℤ) = false →
        (tick_result 5000 0 0 s39 ⟨795, 305, 5⟩).score = s39.score ∧
        (tick_result 5000 0 0 s39 ⟨795, 305, 5⟩).apple = s39.apple ∧
        (tick_result 5000 0 0 s39 ⟨795, 305, 5⟩).snake =
          (advanced s39 ⟨795, 305, 5⟩).shorten_tail) ∧
      (∀ now2 kx2 ky2,
        update now2 kx2 ky2 (tick_result 5000 0 0 s39 ⟨795, 305, 5⟩) =
          some (tick_result 5000 0 0 s39 ⟨795, 305, 5⟩)) :=
  C2_game_over_tick s39 5000 0 0 ⟨795, 305, 5⟩ [⟨785, 305, 5⟩] rfl rfl (by decide) (by decide)

/-- C6: on every tick that performs an advance, if the new head is not
within one cell diameter of the food, the body length, the score and the
food are unchanged; if it is, the body length and the score each increase
by exactly 1 and the food is relocated to a lattice-aligned position
strictly inside the bounds. -/
theorem C6_tick_food (s : MainState) (now kx ky : ℕ) (c : SnakeCell) (l : List SnakeCell)
    (hgo : s.game_over = false) (hb : s.snake.body = c :: l)
    (hf : tick_fires (delay_decayed s now) now = true) :
    update now kx ky s = some (tick_result now kx ky s c) ∧
      (distLtB s.apple.cartesian ((c.next_to s.snake.curr_dir).cartesian) (CELL_DIAMETER : ℤ) =
          false →
        (tick_result now kx ky s c).snake.body.length = s.snake.body.length ∧
        (tick_result now kx ky s c).score = s.score ∧
        (tick_result now kx ky s c).apple = s.apple) ∧
      (distLtB s.apple.cartesian ((c.next_to s.snake.curr_dir).cartesian) (CELL_DIAMETER : ℤ) =
          true →
        (tick_result now kx ky s c).snake.body.length = s.snake.body.length + 1 ∧
        (tick_result now kx ky s c).score = s.score + 1 ∧
        (tick_result now kx ky s c).apple = s.apple.eaten kx ky ∧
        food_ok (tick_result now kx ky s c).apple) := by
  refine ⟨update_fired now kx ky s c l hgo hb hf, ?_, ?_⟩
  · intro hnear
    refine ⟨?_, ?_, ?_⟩ <;> simp [tick_result, hnear, Snake.shorten_tail, advanced]
  · intro hnear
    refine ⟨?_, ?_, ?_, ?_⟩
    · simp [tick_result, hnear, advanced]
    · simp [tick_result, hnear]
    · simp [tick_result, hnear]
    · have happ : (tick_result now kx ky s c).apple = s.apple.eaten kx ky := by
        simp [tick_result, hnear]
      rw [happ]
      exact food_ok_random _ kx ky rfl rfl

/-- C6 witness: instantiated at the first tick of a fresh session (the
food at seed 0 is far from the head, so the non-consuming branch fires). -/
theorem C6_tick_food_witness :
    update 125 0 0 (MainState.new 0 0 0) =
        some (tick_result 125 0 0 (MainState.new 0 0 0) ⟨405, 305, 5⟩) ∧
      (distLtB (MainState.new 0 0 0).apple.cartesian
          (((⟨405, 305, 5⟩ : SnakeCell).next_to (MainState.new 0 0 0).snake.curr_dir).cartesian)
          (CELL_DIAMETER : ℤ) = false →
        (tick_result 125 0 0 (MainState.new 0 0 0) ⟨405, 305, 5⟩).snake.body.length =
            (MainState.new 0 0 0).snake.body.length ∧
          (tick_result 125 0 0 (MainState.new 0 0 0) ⟨405, 305, 5⟩).score =
            (MainState.new 0 0 0).score ∧
          (tick_result 125 0 0 (MainState.new 0 0 0) ⟨405, 305, 5⟩).apple =
            (MainState.new 0 0 0).apple) ∧
      (distLtB (MainState.new 0 0 0).apple.cartesian
          (((⟨405, 305, 5⟩ : SnakeCell).next_to (MainState.new 0 0 0).snake.curr_dir).cartesian)
          (CELL_DIAMETER : ℤ) = true →
        (tick_result 125 0 0 (MainState.new 0 0 0) ⟨405, 305, 5⟩).snake.body.length =
            (MainState.new 0 0 0).snake.body.length + 1 ∧
          (tick_result 125 0 0 (MainState.new 0 0 0) ⟨405, 305, 5⟩).score =
            (MainState.new 0 0 0).score + 1 ∧
          (tick_result 125 0 0 (MainState.new 0 0 0) ⟨405, 305, 5⟩).apple =
            (MainState.new 0 0 0).apple.eaten 0 0 ∧
          food_ok (tick_result 125 0 0 (MainState.new 0 0 0) ⟨405, 305, 5⟩).apple) :=
  C6_tick_food (MainState.new 0 0 0) 125 0 0 ⟨405, 305, 5⟩ [⟨395, 305, 5⟩]
    rfl (by decide) (by decide)

/-- C7: in every state reachable from construction by any sequence of tick
and input events, the body has at least one cell, so the head query never
hits its empty-body failure branch. -/
theorem C7_body_nonempty (s : MainState) (h : Reachable s) :
    1 ≤ s.snake.body.length ∧ s.snake.head.isSome = true := by
  have h2 := reachable_body_len s h
  refine ⟨by omega, ?_⟩
  unfold Snake.head
  cases hb : s.snake.body with
  | nil => rw [hb] at h2; simp at h2
  | cons c l => rfl

/-- C7 witness: instantiated at a freshly constructed state. -/
theorem C7_body_nonempty_witness :
    1 ≤ (MainState.new 0 0 0).snake.body.length ∧
      (MainState.new 0 0 0).snake.head.isSome = true :=
  C7_body_nonempty _ (Reachable.init 0 0 0)

end SnakeRs
